import Mathlib

/- Shallow embedding of src/graphics/mesh.rs: a 2D geometry-to-mesh assembler.
   The file models the MeshBuilder accumulator, the tessellation-library sink
   (BuffersBuilder over a VertexBuffers pair), the vertex normalizer
   (VertexBuilder), the shape methods (line, circle, ellipse, polyline,
   polygon, triangles), the terminal build operation, and the Mesh
   convenience constructors.

   Scalar coordinates (f32 in the source) are abstracted over a type α with a
   zero element: the source never computes with coordinates, it only copies
   them into vertices, so every theorem below holds for arbitrary coordinate
   values, including exotic float values such as NaN (instantiate α with a
   float-like type).

   The external tessellation engine (the lyon crate) is modelled as a record
   of functions producing the sequence of sink calls (add_vertex /
   add_triangle events) that the engine would issue for given inputs; the
   sink arithmetic (vertex_offset bookkeeping of BuffersBuilder) is modelled
   from the engine's documented geometry-builder contract, which the spec
   describes in its external-interfaces section. -/

/-- Modelled from the spec: the 2D coordinate type (Point2 comes from the
maths crate, outside src/); an immutable pair of scalars. -/
structure Point2 (α : Type) where
  x : α
  y : α

/-- Modelled from the spec: the common output vertex record (Vertex is
defined elsewhere in the graphics module, outside src/); a position pair and
a texture-coordinate pair. -/
structure Vertex (α : Type) where
  pos : α × α
  uv : α × α

/-- Modelled from the spec: the two-variant draw-mode selector (DrawMode is
defined elsewhere in the graphics module, outside src/). -/
inductive DrawMode (α : Type) where
  | Fill : DrawMode α
  | Line : α → DrawMode α

/-- The external fill tessellator's vertex record: position and normal
(mesh.rs constructs these in `triangles` and its normalizer reads
`position`). -/
structure FillVertex (α : Type) where
  position : α × α
  normal : α × α

/-- The external stroke tessellator's vertex record; the normalizer in
mesh.rs reads only its `position`. -/
structure StrokeVertex (α : Type) where
  position : α × α
  normal : α × α

/-- The external library's growable vertex/index buffer pair: the Geometry
Accumulator of the spec.  Indices are modelled as natural numbers. -/
structure VertexBuffers (α : Type) where
  vertices : List (Vertex α)
  indices : List ℕ

/-- MeshBuilder from mesh.rs: owns exactly one accumulator. -/
structure MeshBuilder (α : Type) where
  buffer : VertexBuffers α

/-- MeshBuilder::new. -/
def MeshBuilder.new {α : Type} : MeshBuilder α :=
  ⟨⟨[], []⟩⟩

/-- The Vertex Normalizer (the FillVertex instance of `VertexBuilder` in
mesh.rs): copy the position verbatim, fix uv at zero, discard the normal. -/
def VertexBuilder.new_vertex_fill {α : Type} [Zero α] (vertex : FillVertex α) : Vertex α :=
  ⟨vertex.position, ((0 : α), (0 : α))⟩

/-- The Vertex Normalizer (the StrokeVertex instance of `VertexBuilder` in
mesh.rs): copy the position verbatim, fix uv at zero. -/
def VertexBuilder.new_vertex_stroke {α : Type} [Zero α] (vertex : StrokeVertex α) : Vertex α :=
  ⟨vertex.position, ((0 : α), (0 : α))⟩

/-- The external library's BuffersBuilder sink state: the wrapped buffers
plus the vertex offset recorded by begin_geometry.  Modelled from the spec's
external tessellation-engine contract (a per-call output sink appending into
the shared accumulator). -/
structure BuffersBuilder (α : Type) where
  buffers : VertexBuffers α
  vertex_offset : ℕ

/-- begin_geometry: record the current vertex count as the offset for this
geometry run. -/
def BuffersBuilder.begin_geometry {α : Type} (b : VertexBuffers α) : BuffersBuilder α :=
  ⟨b, b.vertices.length⟩

/-- add_vertex: normalize through the vertex constructor `f`, append, and
return the new vertex id relative to the offset of this geometry run. -/
def BuffersBuilder.add_vertex {α V : Type} (f : V → Vertex α) (s : BuffersBuilder α) (v : V) :
    BuffersBuilder α × ℕ :=
  (⟨⟨s.buffers.vertices ++ [f v], s.buffers.indices⟩, s.vertex_offset⟩,
   (s.buffers.vertices ++ [f v]).length - 1 - s.vertex_offset)

/-- add_triangle: push the three relative ids re-based by the offset of this
geometry run. -/
def BuffersBuilder.add_triangle {α : Type} (s : BuffersBuilder α) (a b c : ℕ) :
    BuffersBuilder α :=
  ⟨⟨s.buffers.vertices,
    s.buffers.indices ++ [a + s.vertex_offset, b + s.vertex_offset, c + s.vertex_offset]⟩,
   s.vertex_offset⟩

/-- One sink call the external tessellation engine issues while running:
either an add_vertex with a tessellator vertex, or an add_triangle with
three relative vertex ids. -/
inductive GeomEvent (V : Type) where
  | addVertex (v : V)
  | addTriangle (a b c : ℕ)

/-- Replay a sequence of engine sink calls against the BuffersBuilder, using
the vertex constructor `f` to normalize each added vertex. -/
def runEvents {α V : Type} (f : V → Vertex α) :
    BuffersBuilder α → List (GeomEvent V) → BuffersBuilder α
  | s, [] => s
  | s, GeomEvent.addVertex v :: evs => runEvents f (BuffersBuilder.add_vertex f s v).1 evs
  | s, GeomEvent.addTriangle a b c :: evs => runEvents f (s.add_triangle a b c) evs

/-- The vertices an event list adds, in order. -/
def eventVertices {V : Type} : List (GeomEvent V) → List V
  | [] => []
  | GeomEvent.addVertex v :: evs => v :: eventVertices evs
  | GeomEvent.addTriangle _ _ _ :: evs => eventVertices evs

/-- The geometry-builder contract of the external engine: a triangle event
may only reference ids already returned by add_vertex in the same run, i.e.
ids strictly below the number of vertices added so far. -/
def validEvents {V : Type} : ℕ → List (GeomEvent V) → Prop
  | _, [] => True
  | n, GeomEvent.addVertex _ :: evs => validEvents (n + 1) evs
  | n, GeomEvent.addTriangle a b c :: evs => a < n ∧ b < n ∧ c < n ∧ validEvents n evs

/-- FillOptions::default() — the only fill-options value mesh.rs builds. -/
inductive FillOptions where
  | default

/-- StrokeOptions as built by mesh.rs: default() optionally updated by
with_line_width and with_tolerance.  A `none` field stands for the external
library's default value for that field. -/
structure StrokeOptions (α : Type) where
  line_width : Option α
  tolerance : Option α

/-- StrokeOptions::default(). -/
def StrokeOptions.default {α : Type} : StrokeOptions α :=
  ⟨none, none⟩

/-- StrokeOptions::with_line_width. -/
def StrokeOptions.with_line_width {α : Type} (o : StrokeOptions α) (w : α) : StrokeOptions α :=
  ⟨some w, o.tolerance⟩

/-- StrokeOptions::with_tolerance. -/
def StrokeOptions.with_tolerance {α : Type} (o : StrokeOptions α) (t : α) : StrokeOptions α :=
  ⟨o.line_width, some t⟩

/-- Modelled from the spec: the failure the external tessellation engine may
report on degenerate input (e.g. fewer than the required points). -/
inductive TessellationError where
  | tooFewPoints
  | other (code : ℕ)

/-- The external tessellation engine, as the spec's external-interface
contract describes it: each routine, for given geometric inputs, produces
the sequence of sink calls it would issue; fill_polyline may instead report
a failure.  The engine's output depends only on its inputs (sink ids are
relative to the run), matching the library's behaviour. -/
structure TessEngine (α : Type) where
  fill_circle : α × α → α → α → List (GeomEvent (FillVertex α))
  stroke_circle : α × α → α → StrokeOptions α → List (GeomEvent (StrokeVertex α))
  fill_ellipse : α × α → α × α → α → α → List (GeomEvent (FillVertex α))
  stroke_ellipse : α × α → α × α → α → StrokeOptions α → List (GeomEvent (StrokeVertex α))
  fill_polyline :
    List (α × α) → FillOptions → Except TessellationError (List (GeomEvent (FillVertex α)))
  stroke_polyline : List (α × α) → Bool → StrokeOptions α → List (GeomEvent (StrokeVertex α))

/-- MeshBuilder::circle: dispatch on the mode, run the corresponding
external tessellation routine against a fresh geometry run over the shared
accumulator.  The stroke options carry the width and the tolerance. -/
def MeshBuilder.circle {α : Type} [Zero α] (eng : TessEngine α) (mb : MeshBuilder α)
    (mode : DrawMode α) (point : Point2 α) (radius tolerance : α) : MeshBuilder α :=
  match mode with
  | DrawMode.Fill =>
      ⟨(runEvents VertexBuilder.new_vertex_fill (BuffersBuilder.begin_geometry mb.buffer)
          (eng.fill_circle (point.x, point.y) radius tolerance)).buffers⟩
  | DrawMode.Line line_width =>
      ⟨(runEvents VertexBuilder.new_vertex_stroke (BuffersBuilder.begin_geometry mb.buffer)
          (eng.stroke_circle (point.x, point.y) radius
            ((StrokeOptions.default.with_line_width line_width).with_tolerance tolerance))).buffers⟩

/-- MeshBuilder::ellipse: as circle, with two radii and a zero rotation
(Length::new(0.0) in the source). -/
def MeshBuilder.ellipse {α : Type} [Zero α] (eng : TessEngine α) (mb : MeshBuilder α)
    (mode : DrawMode α) (point : Point2 α) (radius1 radius2 tolerance : α) : MeshBuilder α :=
  match mode with
  | DrawMode.Fill =>
      ⟨(runEvents VertexBuilder.new_vertex_fill (BuffersBuilder.begin_geometry mb.buffer)
          (eng.fill_ellipse (point.x, point.y) (radius1, radius2) (0 : α) tolerance)).buffers⟩
  | DrawMode.Line line_width =>
      ⟨(runEvents VertexBuilder.new_vertex_stroke (BuffersBuilder.begin_geometry mb.buffer)
          (eng.stroke_ellipse (point.x, point.y) (radius1, radius2) (0 : α)
            ((StrokeOptions.default.with_line_width line_width).with_tolerance tolerance))).buffers⟩

/-- MeshBuilder::polyline.  The Fill arm calls the engine's fill_polyline
and unwraps its result: an engine failure is a fatal fault (`none`), never a
returned error.  The Line arm strokes the open path (closed flag clear). -/
def MeshBuilder.polyline {α : Type} [Zero α] (eng : TessEngine α) (mb : MeshBuilder α)
    (mode : DrawMode α) (points : List (Point2 α)) : Option (MeshBuilder α) :=
  match mode with
  | DrawMode.Fill =>
      match eng.fill_polyline (points.map fun ggezpoint => (ggezpoint.x, ggezpoint.y))
          FillOptions.default with
      | Except.error _ => none
      | Except.ok evs =>
          some ⟨(runEvents VertexBuilder.new_vertex_fill
              (BuffersBuilder.begin_geometry mb.buffer) evs).buffers⟩
  | DrawMode.Line width =>
      some ⟨(runEvents VertexBuilder.new_vertex_stroke
          (BuffersBuilder.begin_geometry mb.buffer)
          (eng.stroke_polyline (points.map fun ggezpoint => (ggezpoint.x, ggezpoint.y)) false
            (StrokeOptions.default.with_line_width width))).buffers⟩

/-- MeshBuilder::polygon: textually the same as polyline except the stroke
arm passes the closed flag set. -/
def MeshBuilder.polygon {α : Type} [Zero α] (eng : TessEngine α) (mb : MeshBuilder α)
    (mode : DrawMode α) (points : List (Point2 α)) : Option (MeshBuilder α) :=
  match mode with
  | DrawMode.Fill =>
      match eng.fill_polyline (points.map fun ggezpoint => (ggezpoint.x, ggezpoint.y))
          FillOptions.default with
      | Except.error _ => none
      | Except.ok evs =>
          some ⟨(runEvents VertexBuilder.new_vertex_fill
              (BuffersBuilder.begin_geometry mb.buffer) evs).buffers⟩
  | DrawMode.Line width =>
      some ⟨(runEvents VertexBuilder.new_vertex_stroke
          (BuffersBuilder.begin_geometry mb.buffer)
          (eng.stroke_polyline (points.map fun ggezpoint => (ggezpoint.x, ggezpoint.y)) true
            (StrokeOptions.default.with_line_width width))).buffers⟩

/-- MeshBuilder::line: delegate to polyline with DrawMode::Line(width). -/
def MeshBuilder.line {α : Type} [Zero α] (eng : TessEngine α) (mb : MeshBuilder α)
    (points : List (Point2 α)) (width : α) : Option (MeshBuilder α) :=
  MeshBuilder.polyline eng mb (DrawMode.Line width) points

/-- The loop body of MeshBuilder::triangles: consume the collected
FillVertex list three at a time (the source iterates chunks(3)); for each
chunk add the three vertices then one triangle through the sink.  A chunk
shorter than three trips the inner assertion: a fatal fault (`none`). -/
def trisLoop {α : Type} [Zero α] :
    BuffersBuilder α → List (FillVertex α) → Option (BuffersBuilder α)
  | s, [] => some s
  | s, fst :: snd :: thd :: rest =>
      let r1 := BuffersBuilder.add_vertex VertexBuilder.new_vertex_fill s fst
      let r2 := BuffersBuilder.add_vertex VertexBuilder.new_vertex_fill r1.1 snd
      let r3 := BuffersBuilder.add_vertex VertexBuilder.new_vertex_fill r2.1 thd
      trisLoop (r3.1.add_triangle r1.2 r2.2 r3.2) rest
  | _, _ :: _ => none

/-- MeshBuilder::triangles: assert the point count is a multiple of three
(violation is a fatal fault, `none`, with nothing appended and no GPU
interaction), convert each point into a FillVertex whose position and normal
both carry the point's coordinates, then run the chunked loop inside one
begin_geometry/end_geometry bracket (end_geometry only reports counts and is
state-neutral). -/
def MeshBuilder.triangles {α : Type} [Zero α] (mb : MeshBuilder α)
    (pts : List (Point2 α)) : Option (MeshBuilder α) :=
  if pts.length % 3 = 0 then
    (trisLoop (BuffersBuilder.begin_geometry mb.buffer)
        (pts.map fun p => FillVertex.mk (p.x, p.y) (p.x, p.y))).map
      fun s => ⟨s.buffers⟩
  else
    none

/-- Modelled from the spec: the resource-allocation failure of the external
graphics context (e.g. out of device memory). -/
inductive ResourceError where
  | outOfMemory
  | other (code : ℕ)

/-- Modelled from the spec: the library-wide error type behind GameResult
(defined outside src/); opaque here. -/
inductive GameError where
  | mk (code : ℕ)

/-- Modelled from the spec: the blend-mode type (defined outside src/);
opaque here, only stored and returned. -/
inductive BlendMode where
  | mk (code : ℕ)

/-- Modelled from the spec: the GPU-owned vertex buffer handle, carrying the
uploaded vertex data. -/
structure BufferHandle (α : Type) where
  data : List (Vertex α)

/-- Modelled from the spec: the index-range descriptor produced by the
upload, naming the index data and the range [start, stop) a draw call
covers. -/
structure Slice where
  start : ℕ
  stop : ℕ
  index_data : List ℕ

/-- Modelled from the spec: the external graphics context, reduced to the
one capability build uses.  The spec's contract gives the call a
ResourceError failure mode; the source performs no error handling on it (the
helper it calls faults internally on allocation failure), so the error arm
is observable only as a fault. -/
structure Context (α : Type) where
  create_vertex_buffer_with_slice :
    List (Vertex α) → List ℕ → Except ResourceError (BufferHandle α × Slice)

/-- Mesh from mesh.rs: uploaded buffer handle, slice, optional blend mode. -/
structure Mesh (α : Type) where
  buffer : BufferHandle α
  slice : Slice
  blend_mode : Option BlendMode

/-- MeshBuilder::build: hand the accumulated vertices and indices to the
context's buffer creation exactly once and wrap the resulting pair,
unconditionally, in Ok with blend_mode None.  The source contains no
error-returning path: a failing allocation inside the external call is a
fault (`none`), not a returned GameResult error. -/
def MeshBuilder.build {α : Type} (mb : MeshBuilder α) (ctx : Context α) :
    Option (Except GameError (Mesh α)) :=
  match ctx.create_vertex_buffer_with_slice mb.buffer.vertices mb.buffer.indices with
  | Except.ok (vbuf, slice) => some (Except.ok ⟨vbuf, slice, none⟩)
  | Except.error _ => none

/-- build takes the receiver by shared reference (&self) in the source; in
state-passing form the call returns its result together with the receiver,
which the shared reference leaves unchanged. -/
def MeshBuilder.buildStep {α : Type} (mb : MeshBuilder α) (ctx : Context α) :
    Option (Except GameError (Mesh α)) × MeshBuilder α :=
  (mb.build ctx, mb)

/-- Modelled from the spec: the well-behaved graphics context, whose buffer
creation uploads the vertex data into a handle and returns a slice covering
the whole uploaded index list. -/
def gfxContext (α : Type) : Context α :=
  ⟨fun vs idx => Except.ok (⟨vs⟩, ⟨0, idx.length, idx⟩)⟩

/-- Mesh::new_line: fresh builder, polyline with DrawMode::Line(width),
build. -/
def Mesh.new_line {α : Type} [Zero α] (eng : TessEngine α) (ctx : Context α)
    (points : List (Point2 α)) (width : α) : Option (Except GameError (Mesh α)) :=
  match MeshBuilder.polyline eng MeshBuilder.new (DrawMode.Line width) points with
  | none => none
  | some mb => mb.build ctx

/-- Mesh::new_circle: fresh builder, circle, build. -/
def Mesh.new_circle {α : Type} [Zero α] (eng : TessEngine α) (ctx : Context α)
    (mode : DrawMode α) (point : Point2 α) (radius tolerance : α) :
    Option (Except GameError (Mesh α)) :=
  (MeshBuilder.circle eng MeshBuilder.new mode point radius tolerance).build ctx

/-- Mesh::new_ellipse: fresh builder, ellipse, build. -/
def Mesh.new_ellipse {α : Type} [Zero α] (eng : TessEngine α) (ctx : Context α)
    (mode : DrawMode α) (point : Point2 α) (radius1 radius2 tolerance : α) :
    Option (Except GameError (Mesh α)) :=
  (MeshBuilder.ellipse eng MeshBuilder.new mode point radius1 radius2 tolerance).build ctx

/-- Mesh::new_polyline: fresh builder, polyline, build. -/
def Mesh.new_polyline {α : Type} [Zero α] (eng : TessEngine α) (ctx : Context α)
    (mode : DrawMode α) (points : List (Point2 α)) : Option (Except GameError (Mesh α)) :=
  match MeshBuilder.polyline eng MeshBuilder.new mode points with
  | none => none
  | some mb => mb.build ctx

/-- Mesh::new_polygon: fresh builder, polygon, build. -/
def Mesh.new_polygon {α : Type} [Zero α] (eng : TessEngine α) (ctx : Context α)
    (mode : DrawMode α) (points : List (Point2 α)) : Option (Except GameError (Mesh α)) :=
  match MeshBuilder.polygon eng MeshBuilder.new mode points with
  | none => none
  | some mb => mb.build ctx

/-- Mesh::from_triangles: fresh builder, triangles, build. -/
def Mesh.from_triangles {α : Type} [Zero α] (ctx : Context α)
    (pts : List (Point2 α)) : Option (Except GameError (Mesh α)) :=
  match MeshBuilder.triangles MeshBuilder.new pts with
  | none => none
  | some mb => mb.build ctx

/-- The accumulator invariant of the spec: every stored index points at an
existing vertex, and indices come in whole triples. -/
def accumInv {α : Type} (b : VertexBuffers α) : Prop :=
  (∀ i ∈ b.indices, i < b.vertices.length) ∧ b.indices.length % 3 = 0

/-- Append-only evolution of the accumulator: the new vertex and index lists
each extend the old ones. -/
def appendOnly {α : Type} (b b2 : VertexBuffers α) : Prop :=
  (∃ t, b2.vertices = b.vertices ++ t) ∧ (∃ t, b2.indices = b.indices ++ t)

/-- An engine honouring the geometry-builder contract: every event list it
can produce is valid for a fresh run. -/
def TessEngine.wellFormed {α : Type} (eng : TessEngine α) : Prop :=
  (∀ c r tol, validEvents 0 (eng.fill_circle c r tol)) ∧
  (∀ c r o, validEvents 0 (eng.stroke_circle c r o)) ∧
  (∀ c rr rot tol, validEvents 0 (eng.fill_ellipse c rr rot tol)) ∧
  (∀ c rr rot o, validEvents 0 (eng.stroke_ellipse c rr rot o)) ∧
  (∀ pts o evs, eng.fill_polyline pts o = Except.ok evs → validEvents 0 evs) ∧
  (∀ pts closed o, validEvents 0 (eng.stroke_polyline pts closed o))

/-- A trivial well-behaved engine used to instantiate hypotheses on concrete
inputs: it emits no geometry. -/
def engZero : TessEngine ℤ :=
  ⟨fun _ _ _ => [], fun _ _ _ => [], fun _ _ _ _ => [], fun _ _ _ _ => [],
   fun _ _ => Except.ok [], fun _ _ _ => []⟩

/-- An engine whose fill_polyline always reports a degenerate-input failure,
used to exercise the failure path on concrete inputs. -/
def engErr : TessEngine ℤ :=
  ⟨fun _ _ _ => [], fun _ _ _ => [], fun _ _ _ _ => [], fun _ _ _ _ => [],
   fun _ _ => Except.error TessellationError.tooFewPoints, fun _ _ _ => []⟩

/-- An engine whose stroke output depends on the closed flag: the closed
stroke emits one vertex, the open stroke emits none.  Used to exhibit that
the closed and open stroke runs can differ. -/
def engDiff : TessEngine ℤ :=
  ⟨fun _ _ _ => [], fun _ _ _ => [], fun _ _ _ _ => [], fun _ _ _ _ => [],
   fun _ _ => Except.ok [],
   fun _ closed _ =>
     if closed then [GeomEvent.addVertex (StrokeVertex.mk (0, 0) (1, 0))] else []⟩

/-- A context whose buffer creation always fails with an out-of-memory
resource error. -/
def ctxFail : Context ℤ :=
  ⟨fun _ _ => Except.error ResourceError.outOfMemory⟩

/-- Three concrete points forming one triangle, for witnesses. -/
def ptsA : List (Point2 ℤ) :=
  [⟨0, 0⟩, ⟨1, 0⟩, ⟨0, 1⟩]

/-- The builder state reached by feeding ptsA to triangles from a fresh
builder: the three normalized vertices and one index triple. -/
def mbTri : MeshBuilder ℤ :=
  ⟨⟨[⟨(0, 0), (0, 0)⟩, ⟨(1, 0), (0, 0)⟩, ⟨(0, 1), (0, 0)⟩], [0, 1, 2]⟩⟩

deriving instance DecidableEq for Point2
deriving instance DecidableEq for Vertex
deriving instance DecidableEq for FillVertex
deriving instance DecidableEq for StrokeVertex
deriving instance DecidableEq for VertexBuffers
deriving instance DecidableEq for MeshBuilder
deriving instance DecidableEq for BuffersBuilder
deriving instance DecidableEq for StrokeOptions
deriving instance DecidableEq for TessellationError
deriving instance DecidableEq for ResourceError
deriving instance DecidableEq for GameError
deriving instance DecidableEq for BlendMode
deriving instance DecidableEq for BufferHandle
deriving instance DecidableEq for Slice
deriving instance DecidableEq for Mesh
deriving instance DecidableEq for GeomEvent
deriving instance DecidableEq for DrawMode

/-- appendOnly is reflexive. -/
theorem appendOnly_refl {α : Type} (b : VertexBuffers α) : appendOnly b b :=
  ⟨⟨[], by simp⟩, ⟨[], by simp⟩⟩

/-- appendOnly is transitive. -/
theorem appendOnly_trans {α : Type} {a b c : VertexBuffers α}
    (h1 : appendOnly a b) (h2 : appendOnly b c) : appendOnly a c := by
  obtain ⟨⟨t1, hv1⟩, ⟨u1, hi1⟩⟩ := h1
  obtain ⟨⟨t2, hv2⟩, ⟨u2, hi2⟩⟩ := h2
  exact ⟨⟨t1 ++ t2, by rw [hv2, hv1, List.append_assoc]⟩,
         ⟨u1 ++ u2, by rw [hi2, hi1, List.append_assoc]⟩⟩

/-- Replaying engine events appends exactly the normalized event vertices to
the vertex list, in order. -/
theorem runEvents_vertices {α V : Type} (f : V → Vertex α) (evs : List (GeomEvent V)) :
    ∀ s : BuffersBuilder α,
      (runEvents f s evs).buffers.vertices =
        s.buffers.vertices ++ (eventVertices evs).map f := by
  induction evs with
  | nil => intro s; simp [runEvents, eventVertices]
  | cons e evs ih =>
    intro s
    cases e with
    | addVertex v =>
      simp only [runEvents, eventVertices, ih, BuffersBuilder.add_vertex, List.map_cons]
      simp [List.append_assoc]
    | addTriangle a b c =>
      simp only [runEvents, eventVertices, ih, BuffersBuilder.add_triangle]

/-- Replaying engine events leaves the vertex offset unchanged. -/
theorem runEvents_offset {α V : Type} (f : V → Vertex α) (evs : List (GeomEvent V)) :
    ∀ s : BuffersBuilder α, (runEvents f s evs).vertex_offset = s.vertex_offset := by
  induction evs with
  | nil => intro s; simp [runEvents]
  | cons e evs ih =>
    intro s
    cases e with
    | addVertex v => simp only [runEvents, ih, BuffersBuilder.add_vertex]
    | addTriangle a b c => simp only [runEvents, ih, BuffersBuilder.add_triangle]

/-- Replaying a valid event sequence preserves the accumulator invariant and
only appends to the buffers. -/
theorem runEvents_preserves {α V : Type} (f : V → Vertex α) (evs : List (GeomEvent V)) :
    ∀ s : BuffersBuilder α,
      s.vertex_offset ≤ s.buffers.vertices.length →
      validEvents (s.buffers.vertices.length - s.vertex_offset) evs →
      accumInv s.buffers →
      accumInv (runEvents f s evs).buffers ∧
        appendOnly s.buffers (runEvents f s evs).buffers := by
  induction evs with
  | nil =>
    intro s _ _ hinv
    exact ⟨hinv, appendOnly_refl _⟩
  | cons e evs ih =>
    intro s hoff hval hinv
    cases e with
    | addVertex v =>
      simp only [validEvents] at hval
      simp only [runEvents]
      have hstep := ih (BuffersBuilder.add_vertex f s v).1
        (by simp [BuffersBuilder.add_vertex]; omega)
        (by
          simp only [BuffersBuilder.add_vertex, List.length_append, List.length_cons,
            List.length_nil]
          have he : s.buffers.vertices.length + (0 + 1) - s.vertex_offset =
              s.buffers.vertices.length - s.vertex_offset + 1 := by omega
          rw [he]
          exact hval)
        (by
          obtain ⟨hbound, hmod⟩ := hinv
          refine ⟨?_, ?_⟩
          · intro i hi
            simp only [BuffersBuilder.add_vertex] at hi ⊢
            have := hbound i hi
            simp only [List.length_append, List.length_cons, List.length_nil]
            omega
          · simpa [BuffersBuilder.add_vertex] using hmod)
      refine ⟨hstep.1, appendOnly_trans ?_ hstep.2⟩
      exact ⟨⟨[f v], rfl⟩, ⟨[], by simp [BuffersBuilder.add_vertex]⟩⟩
    | addTriangle a b c =>
      simp only [validEvents] at hval
      obtain ⟨ha, hb, hc, hval'⟩ := hval
      simp only [runEvents]
      have hstep := ih (s.add_triangle a b c)
        (by simpa [BuffersBuilder.add_triangle] using hoff)
        (by simpa [BuffersBuilder.add_triangle] using hval')
        (by
          obtain ⟨hbound, hmod⟩ := hinv
          refine ⟨?_, ?_⟩
          · intro i hi
            simp only [BuffersBuilder.add_triangle, List.mem_append, List.mem_cons,
              List.not_mem_nil, or_false] at hi
            simp only [BuffersBuilder.add_triangle]
            rcases hi with hi | hi | hi | hi
            · exact hbound i hi
            · subst hi; omega
            · subst hi; omega
            · subst hi; omega
          · simp only [BuffersBuilder.add_triangle, List.length_append, List.length_cons,
              List.length_nil]
            omega)
      refine ⟨hstep.1, appendOnly_trans ?_ hstep.2⟩
      exact ⟨⟨[], by simp [BuffersBuilder.add_triangle]⟩,
             ⟨[a + s.vertex_offset, b + s.vertex_offset, c + s.vertex_offset], rfl⟩⟩

/-- One pass of the triangles loop body: the three add_vertex calls append
the three normalized vertices and the add_triangle call pushes exactly their
absolute positions, provided the offset does not exceed the vertex count. -/
theorem trisStep_eq {α : Type} [Zero α] (s : BuffersBuilder α) (fst snd thd : FillVertex α)
    (hoff : s.vertex_offset ≤ s.buffers.vertices.length) :
    ((BuffersBuilder.add_vertex VertexBuilder.new_vertex_fill
        (BuffersBuilder.add_vertex VertexBuilder.new_vertex_fill
          (BuffersBuilder.add_vertex VertexBuilder.new_vertex_fill s fst).1 snd).1 thd).1.add_triangle
      (BuffersBuilder.add_vertex VertexBuilder.new_vertex_fill s fst).2
      (BuffersBuilder.add_vertex VertexBuilder.new_vertex_fill
        (BuffersBuilder.add_vertex VertexBuilder.new_vertex_fill s fst).1 snd).2
      (BuffersBuilder.add_vertex VertexBuilder.new_vertex_fill
        (BuffersBuilder.add_vertex VertexBuilder.new_vertex_fill
          (BuffersBuilder.add_vertex VertexBuilder.new_vertex_fill s fst).1 snd).1 thd).2) =
    ⟨⟨s.buffers.vertices ++
        [VertexBuilder.new_vertex_fill fst, VertexBuilder.new_vertex_fill snd,
          VertexBuilder.new_vertex_fill thd],
      s.buffers.indices ++
        [s.buffers.vertices.length, s.buffers.vertices.length + 1,
          s.buffers.vertices.length + 2]⟩,
     s.vertex_offset⟩ := by
  simp only [BuffersBuilder.add_vertex, BuffersBuilder.add_triangle, List.length_append,
    List.length_cons, List.length_nil, List.append_assoc, List.cons_append, List.nil_append]
  refine congrArg₂ BuffersBuilder.mk (congrArg (VertexBuffers.mk _) ?_) rfl
  simp
  omega

/-- Three consecutive naturals peel off the front of a range'. -/
theorem range'_three (L m : ℕ) :
    List.range' L (m + 3) = L :: (L + 1) :: (L + 2) :: List.range' (L + 3) m := by
  simp [List.range'_succ]

/-- The triangles loop on a list of length 3·n: it succeeds, appends the n
normalized triples in order, and pushes as indices exactly the consecutive
positions of the newly appended vertices. -/
theorem trisLoop_spec {α : Type} [Zero α] (n : ℕ) :
    ∀ (vs : List (FillVertex α)) (s : BuffersBuilder α),
      vs.length = 3 * n →
      s.vertex_offset ≤ s.buffers.vertices.length →
      trisLoop s vs =
        some ⟨⟨s.buffers.vertices ++ vs.map VertexBuilder.new_vertex_fill,
               s.buffers.indices ++ List.range' s.buffers.vertices.length vs.length⟩,
              s.vertex_offset⟩ := by
  induction n with
  | zero =>
    intro vs s hlen hoff
    have hnil : vs = [] := List.length_eq_zero.mp (by omega)
    subst hnil
    simp [trisLoop, List.range']
  | succ n ih =>
    intro vs s hlen hoff
    obtain ⟨fst, snd, thd, rest, rfl⟩ : ∃ a b c r, vs = a :: b :: c :: r := by
      match vs with
      | [] => simp only [List.length_nil] at hlen; omega
      | [a] => simp only [List.length_cons, List.length_nil] at hlen; omega
      | [a, b] => simp only [List.length_cons, List.length_nil] at hlen; omega
      | a :: b :: c :: r => exact ⟨a, b, c, r, rfl⟩
    have hrest : rest.length = 3 * n := by
      simp only [List.length_cons] at hlen; omega
    have hoff3 : s.vertex_offset ≤
        (s.buffers.vertices ++ [VertexBuilder.new_vertex_fill fst,
          VertexBuilder.new_vertex_fill snd, VertexBuilder.new_vertex_fill thd]).length := by
      simp only [List.length_append, List.length_cons, List.length_nil]
      omega
    have hih := ih rest
      ⟨⟨s.buffers.vertices ++ [VertexBuilder.new_vertex_fill fst,
          VertexBuilder.new_vertex_fill snd, VertexBuilder.new_vertex_fill thd],
        s.buffers.indices ++ [s.buffers.vertices.length, s.buffers.vertices.length + 1,
          s.buffers.vertices.length + 2]⟩,
       s.vertex_offset⟩ hrest hoff3
    simp only [trisLoop]
    rw [trisStep_eq s fst snd thd hoff, hih]
    dsimp only
    have hA : (s.buffers.vertices ++ [VertexBuilder.new_vertex_fill fst,
        VertexBuilder.new_vertex_fill snd, VertexBuilder.new_vertex_fill thd]).length =
        s.buffers.vertices.length + 3 := by
      simp only [List.length_append, List.length_cons, List.length_nil]
    have hcount : (fst :: snd :: thd :: rest).length = rest.length + 3 := by
      simp only [List.length_cons]
    rw [hA, hcount, range'_three]
    simp [List.append_assoc]

/-- A vertex of the replayed buffers is either an original one or the image
of some engine vertex under the vertex constructor. -/
theorem mem_runEvents_vertices {α V : Type} (f : V → Vertex α) (evs : List (GeomEvent V))
    (s : BuffersBuilder α) (v : Vertex α)
    (hv : v ∈ (runEvents f s evs).buffers.vertices) :
    v ∈ s.buffers.vertices ∨ ∃ w, v = f w := by
  rw [runEvents_vertices] at hv
  rcases List.mem_append.mp hv with h | h
  · exact Or.inl h
  · obtain ⟨w, _, rfl⟩ := List.mem_map.mp h
    exact Or.inr ⟨w, rfl⟩

/-- A vertex of a fresh geometry run is an original one or has zero uv,
whenever the vertex constructor only produces zero-uv vertices. -/
theorem mem_run_begin {α V : Type} [Zero α] (f : V → Vertex α)
    (huv : ∀ w, (f w).uv = ((0 : α), (0 : α))) (evs : List (GeomEvent V))
    (b : VertexBuffers α) (v : Vertex α)
    (hv : v ∈ (runEvents f (BuffersBuilder.begin_geometry b) evs).buffers.vertices) :
    v ∈ b.vertices ∨ v.uv = ((0 : α), (0 : α)) := by
  rcases mem_runEvents_vertices f evs _ v hv with h | ⟨w, rfl⟩
  · exact Or.inl h
  · exact Or.inr (huv w)

/-- A fresh geometry run over valid events preserves the accumulator
invariant and only appends. -/
theorem run_begin_preserves {α V : Type} (f : V → Vertex α) (evs : List (GeomEvent V))
    (b : VertexBuffers α) (hval : validEvents 0 evs) (hinv : accumInv b) :
    accumInv (runEvents f (BuffersBuilder.begin_geometry b) evs).buffers ∧
      appendOnly b (runEvents f (BuffersBuilder.begin_geometry b) evs).buffers :=
  runEvents_preserves f evs (BuffersBuilder.begin_geometry b) (Nat.le_refl _)
    (by simpa [BuffersBuilder.begin_geometry, Nat.sub_self] using hval) hinv

/-- Successful triangles calls preserve the invariant and only append. -/
theorem triangles_preserves {α : Type} [Zero α] (mb : MeshBuilder α)
    (pts : List (Point2 α)) (mb2 : MeshBuilder α)
    (h : MeshBuilder.triangles mb pts = some mb2) (hinv : accumInv mb.buffer) :
    accumInv mb2.buffer ∧ appendOnly mb.buffer mb2.buffer := by
  by_cases h3 : pts.length % 3 = 0
  · obtain ⟨n, hn⟩ : ∃ n, pts.length = 3 * n := ⟨pts.length / 3, by omega⟩
    unfold MeshBuilder.triangles at h
    rw [if_pos h3,
      trisLoop_spec n _ _ (by simp [hn]) (by simp [BuffersBuilder.begin_geometry])] at h
    simp only [Option.map_some', Option.some.injEq] at h
    subst h
    obtain ⟨hbound, hmod⟩ := hinv
    refine ⟨⟨?_, ?_⟩, ⟨_, rfl⟩, ⟨_, rfl⟩⟩
    · intro i hi
      simp only [BuffersBuilder.begin_geometry, List.length_append, List.length_map] at hi ⊢
      rcases List.mem_append.mp hi with hi | hi
      · have := hbound i hi
        omega
      · rw [List.mem_range'_1] at hi
        omega
    · simp only [BuffersBuilder.begin_geometry, List.length_append, List.length_range',
        List.length_map]
      omega
  · simp [MeshBuilder.triangles, h3] at h

/-- circle preserves the invariant and only appends, for a contract-honouring
engine. -/
theorem circle_preserves {α : Type} [Zero α] (eng : TessEngine α) (hwf : eng.wellFormed)
    (mb : MeshBuilder α) (mode : DrawMode α) (point : Point2 α) (radius tolerance : α)
    (hinv : accumInv mb.buffer) :
    accumInv (MeshBuilder.circle eng mb mode point radius tolerance).buffer ∧
      appendOnly mb.buffer (MeshBuilder.circle eng mb mode point radius tolerance).buffer := by
  obtain ⟨h1, h2, h3, h4, h5, h6⟩ := hwf
  cases mode with
  | Fill => exact run_begin_preserves _ _ _ (h1 _ _ _) hinv
  | Line w => exact run_begin_preserves _ _ _ (h2 _ _ _) hinv

/-- ellipse preserves the invariant and only appends, for a
contract-honouring engine. -/
theorem ellipse_preserves {α : Type} [Zero α] (eng : TessEngine α) (hwf : eng.wellFormed)
    (mb : MeshBuilder α) (mode : DrawMode α) (point : Point2 α) (r1 r2 tol : α)
    (hinv : accumInv mb.buffer) :
    accumInv (MeshBuilder.ellipse eng mb mode point r1 r2 tol).buffer ∧
      appendOnly mb.buffer (MeshBuilder.ellipse eng mb mode point r1 r2 tol).buffer := by
  obtain ⟨h1, h2, h3, h4, h5, h6⟩ := hwf
  cases mode with
  | Fill => exact run_begin_preserves _ _ _ (h3 _ _ _ _) hinv
  | Line w => exact run_begin_preserves _ _ _ (h4 _ _ _ _) hinv

/-- Successful polyline calls preserve the invariant and only append, for a
contract-honouring engine. -/
theorem polyline_preserves {α : Type} [Zero α] (eng : TessEngine α) (hwf : eng.wellFormed)
    (mb : MeshBuilder α) (mode : DrawMode α) (pts : List (Point2 α)) (mb2 : MeshBuilder α)
    (h : MeshBuilder.polyline eng mb mode pts = some mb2) (hinv : accumInv mb.buffer) :
    accumInv mb2.buffer ∧ appendOnly mb.buffer mb2.buffer := by
  obtain ⟨h1, h2, h3, h4, h5, h6⟩ := hwf
  cases mode with
  | Fill =>
    cases heng : eng.fill_polyline (pts.map fun p => (p.x, p.y)) FillOptions.default with
    | error e => simp [MeshBuilder.polyline, heng] at h
    | ok evs =>
      simp only [MeshBuilder.polyline, heng, Option.some.injEq] at h
      subst h
      exact run_begin_preserves _ _ _ (h5 _ _ _ heng) hinv
  | Line w =>
    simp only [MeshBuilder.polyline, Option.some.injEq] at h
    subst h
    exact run_begin_preserves _ _ _ (h6 _ _ _) hinv

/-- Successful polygon calls preserve the invariant and only append, for a
contract-honouring engine. -/
theorem polygon_preserves {α : Type} [Zero α] (eng : TessEngine α) (hwf : eng.wellFormed)
    (mb : MeshBuilder α) (mode : DrawMode α) (pts : List (Point2 α)) (mb2 : MeshBuilder α)
    (h : MeshBuilder.polygon eng mb mode pts = some mb2) (hinv : accumInv mb.buffer) :
    accumInv mb2.buffer ∧ appendOnly mb.buffer mb2.buffer := by
  obtain ⟨h1, h2, h3, h4, h5, h6⟩ := hwf
  cases mode with
  | Fill =>
    cases heng : eng.fill_polyline (pts.map fun p => (p.x, p.y)) FillOptions.default with
    | error e => simp [MeshBuilder.polygon, heng] at h
    | ok evs =>
      simp only [MeshBuilder.polygon, heng, Option.some.injEq] at h
      subst h
      exact run_begin_preserves _ _ _ (h5 _ _ _ heng) hinv
  | Line w =>
    simp only [MeshBuilder.polygon, Option.some.injEq] at h
    subst h
    exact run_begin_preserves _ _ _ (h6 _ _ _) hinv

/-- Successful line calls preserve the invariant and only append, for a
contract-honouring engine. -/
theorem line_preserves {α : Type} [Zero α] (eng : TessEngine α) (hwf : eng.wellFormed)
    (mb : MeshBuilder α) (pts : List (Point2 α)) (width : α) (mb2 : MeshBuilder α)
    (h : MeshBuilder.line eng mb pts width = some mb2) (hinv : accumInv mb.buffer) :
    accumInv mb2.buffer ∧ appendOnly mb.buffer mb2.buffer :=
  polyline_preserves eng hwf mb (DrawMode.Line width) pts mb2 h hinv

/-- Every vertex a circle call appends has zero uv. -/
theorem circle_uv {α : Type} [Zero α] (eng : TessEngine α) (mb : MeshBuilder α)
    (mode : DrawMode α) (point : Point2 α) (radius tolerance : α) (v : Vertex α)
    (hv : v ∈ (MeshBuilder.circle eng mb mode point radius tolerance).buffer.vertices) :
    v ∈ mb.buffer.vertices ∨ v.uv = ((0 : α), (0 : α)) := by
  cases mode with
  | Fill => exact mem_run_begin _ (fun w => rfl) _ _ v hv
  | Line w => exact mem_run_begin _ (fun w => rfl) _ _ v hv

/-- Every vertex an ellipse call appends has zero uv. -/
theorem ellipse_uv {α : Type} [Zero α] (eng : TessEngine α) (mb : MeshBuilder α)
    (mode : DrawMode α) (point : Point2 α) (r1 r2 tol : α) (v : Vertex α)
    (hv : v ∈ (MeshBuilder.ellipse eng mb mode point r1 r2 tol).buffer.vertices) :
    v ∈ mb.buffer.vertices ∨ v.uv = ((0 : α), (0 : α)) := by
  cases mode with
  | Fill => exact mem_run_begin _ (fun w => rfl) _ _ v hv
  | Line w => exact mem_run_begin _ (fun w => rfl) _ _ v hv

/-- Every vertex a successful polyline call appends has zero uv. -/
theorem polyline_uv {α : Type} [Zero α] (eng : TessEngine α) (mb : MeshBuilder α)
    (mode : DrawMode α) (pts : List (Point2 α)) (mb2 : MeshBuilder α)
    (h : MeshBuilder.polyline eng mb mode pts = some mb2) (v : Vertex α)
    (hv : v ∈ mb2.buffer.vertices) :
    v ∈ mb.buffer.vertices ∨ v.uv = ((0 : α), (0 : α)) := by
  cases mode with
  | Fill =>
    cases heng : eng.fill_polyline (pts.map fun p => (p.x, p.y)) FillOptions.default with
    | error e => simp [MeshBuilder.polyline, heng] at h
    | ok evs =>
      simp only [MeshBuilder.polyline, heng, Option.some.injEq] at h
      subst h
      exact mem_run_begin _ (fun w => rfl) _ _ v hv
  | Line w =>
    simp only [MeshBuilder.polyline, Option.some.injEq] at h
    subst h
    exact mem_run_begin _ (fun w => rfl) _ _ v hv

/-- Every vertex a successful polygon call appends has zero uv. -/
theorem polygon_uv {α : Type} [Zero α] (eng : TessEngine α) (mb : MeshBuilder α)
    (mode : DrawMode α) (pts : List (Point2 α)) (mb2 : MeshBuilder α)
    (h : MeshBuilder.polygon eng mb mode pts = some mb2) (v : Vertex α)
    (hv : v ∈ mb2.buffer.vertices) :
    v ∈ mb.buffer.vertices ∨ v.uv = ((0 : α), (0 : α)) := by
  cases mode with
  | Fill =>
    cases heng : eng.fill_polyline (pts.map fun p => (p.x, p.y)) FillOptions.default with
    | error e => simp [MeshBuilder.polygon, heng] at h
    | ok evs =>
      simp only [MeshBuilder.polygon, heng, Option.some.injEq] at h
      subst h
      exact mem_run_begin _ (fun w => rfl) _ _ v hv
  | Line w =>
    simp only [MeshBuilder.polygon, Option.some.injEq] at h
    subst h
    exact mem_run_begin _ (fun w => rfl) _ _ v hv

/-- Every vertex a successful triangles call appends has zero uv. -/
theorem triangles_uv {α : Type} [Zero α] (mb : MeshBuilder α) (pts : List (Point2 α))
    (mb2 : MeshBuilder α) (h : MeshBuilder.triangles mb pts = some mb2) (v : Vertex α)
    (hv : v ∈ mb2.buffer.vertices) :
    v ∈ mb.buffer.vertices ∨ v.uv = ((0 : α), (0 : α)) := by
  by_cases h3 : pts.length % 3 = 0
  · obtain ⟨n, hn⟩ : ∃ n, pts.length = 3 * n := ⟨pts.length / 3, by omega⟩
    unfold MeshBuilder.triangles at h
    rw [if_pos h3,
      trisLoop_spec n _ _ (by simp [hn]) (by simp [BuffersBuilder.begin_geometry])] at h
    simp only [Option.map_some', Option.some.injEq] at h
    subst h
    rcases List.mem_append.mp hv with hv | hv
    · exact Or.inl hv
    · obtain ⟨w, _, rfl⟩ := List.mem_map.mp hv
      exact Or.inr rfl
  · simp [MeshBuilder.triangles, h3] at h

/-- C1: triangles(P) faults exactly when |P| is not a multiple of three: the
length assertion fails immediately, before any vertex or index is appended
to the accumulator (the faulting call yields no successor state) and before
any GPU interaction (the method takes no context at all); when |P| is a
multiple of three the assertion passes and no fault is raised. -/
theorem C1_triangles_assertion {α : Type} [Zero α] :
    (∀ (mb : MeshBuilder α) (pts : List (Point2 α)), pts.length % 3 ≠ 0 →
        MeshBuilder.triangles mb pts = none) ∧
    (∀ (mb : MeshBuilder α) (pts : List (Point2 α)), pts.length % 3 = 0 →
        ∃ mb2, MeshBuilder.triangles mb pts = some mb2) := by
  constructor
  · intro mb pts h
    simp [MeshBuilder.triangles, h]
  · intro mb pts h
    obtain ⟨n, hn⟩ : ∃ n, pts.length = 3 * n := ⟨pts.length / 3, by omega⟩
    unfold MeshBuilder.triangles
    rw [if_pos h,
      trisLoop_spec n _ _ (by simp [hn]) (by simp [BuffersBuilder.begin_geometry])]
    exact ⟨_, rfl⟩

/-- C1 witness: a one-point list faults; a three-point list does not. -/
theorem C1_witness :
    MeshBuilder.triangles MeshBuilder.new [(⟨0, 0⟩ : Point2 ℤ)] = none ∧
    ∃ mb2, MeshBuilder.triangles MeshBuilder.new ptsA = some mb2 :=
  ⟨C1_triangles_assertion.1 MeshBuilder.new [⟨0, 0⟩] (by decide),
   C1_triangles_assertion.2 MeshBuilder.new ptsA (by decide)⟩

/-- C2: on a nonempty point list whose length is a multiple of three,
triangles appends exactly the |P| normalized input points as new vertices
(uv zero, normal data discarded), in order, and appends exactly |P| new
indices, namely the consecutive positions of those new vertices: the |P|/3
consecutive index triples each reference the three newly appended, distinct
vertex slots of one input triple, in order, whatever the winding or
degeneracy of the points. -/
theorem C2_triangles_appends {α : Type} [Zero α] (mb : MeshBuilder α)
    (pts : List (Point2 α)) (h3 : pts.length % 3 = 0) (hpos : 0 < pts.length) :
    MeshBuilder.triangles mb pts =
      some ⟨⟨mb.buffer.vertices ++ pts.map (fun p => ⟨(p.x, p.y), ((0 : α), (0 : α))⟩),
             mb.buffer.indices ++
               List.range' mb.buffer.vertices.length pts.length⟩⟩ := by
  obtain ⟨n, hn⟩ : ∃ n, pts.length = 3 * n := ⟨pts.length / 3, by omega⟩
  unfold MeshBuilder.triangles
  rw [if_pos h3,
    trisLoop_spec n _ _ (by simp [hn]) (by simp [BuffersBuilder.begin_geometry])]
  simp [BuffersBuilder.begin_geometry, VertexBuilder.new_vertex_fill, Function.comp]

/-- C2 witness: the three concrete points yield exactly three vertices and
the index triple 0,1,2. -/
theorem C2_witness :
    MeshBuilder.triangles MeshBuilder.new ptsA =
      some ⟨⟨(MeshBuilder.new (α := ℤ)).buffer.vertices ++
          ptsA.map (fun p => ⟨(p.x, p.y), ((0 : ℤ), (0 : ℤ))⟩),
        (MeshBuilder.new (α := ℤ)).buffer.indices ++
          List.range' (MeshBuilder.new (α := ℤ)).buffer.vertices.length ptsA.length⟩⟩ :=
  C2_triangles_appends MeshBuilder.new ptsA (by decide) (by decide)

/-- C3: the vertex normalizer copies the position verbatim (whatever its
value — the statement is polymorphic in the coordinate type, so it covers
NaN-like values) and fixes uv at zero, on both the fill and the stroke
path; consequently every vertex any shape method appends to the accumulator
has zero uv. -/
theorem C3_normalizer_uv_zero {α : Type} [Zero α] :
    (∀ v : FillVertex α,
        VertexBuilder.new_vertex_fill v = ⟨v.position, ((0 : α), (0 : α))⟩) ∧
    (∀ v : StrokeVertex α,
        VertexBuilder.new_vertex_stroke v = ⟨v.position, ((0 : α), (0 : α))⟩) ∧
    (∀ (eng : TessEngine α) (mb : MeshBuilder α) mode point (radius tolerance : α),
        ∀ v ∈ (MeshBuilder.circle eng mb mode point radius tolerance).buffer.vertices,
          v ∈ mb.buffer.vertices ∨ v.uv = ((0 : α), (0 : α))) ∧
    (∀ (eng : TessEngine α) (mb : MeshBuilder α) mode point (r1 r2 tol : α),
        ∀ v ∈ (MeshBuilder.ellipse eng mb mode point r1 r2 tol).buffer.vertices,
          v ∈ mb.buffer.vertices ∨ v.uv = ((0 : α), (0 : α))) ∧
    (∀ (eng : TessEngine α) (mb : MeshBuilder α) mode pts mb2,
        MeshBuilder.polyline eng mb mode pts = some mb2 →
          ∀ v ∈ mb2.buffer.vertices, v ∈ mb.buffer.vertices ∨ v.uv = ((0 : α), (0 : α))) ∧
    (∀ (eng : TessEngine α) (mb : MeshBuilder α) mode pts mb2,
        MeshBuilder.polygon eng mb mode pts = some mb2 →
          ∀ v ∈ mb2.buffer.vertices, v ∈ mb.buffer.vertices ∨ v.uv = ((0 : α), (0 : α))) ∧
    (∀ (eng : TessEngine α) (mb : MeshBuilder α) pts (width : α) mb2,
        MeshBuilder.line eng mb pts width = some mb2 →
          ∀ v ∈ mb2.buffer.vertices, v ∈ mb.buffer.vertices ∨ v.uv = ((0 : α), (0 : α))) ∧
    (∀ (mb : MeshBuilder α) pts mb2,
        MeshBuilder.triangles mb pts = some mb2 →
          ∀ v ∈ mb2.buffer.vertices, v ∈ mb.buffer.vertices ∨ v.uv = ((0 : α), (0 : α))) :=
  ⟨fun _ => rfl, fun _ => rfl,
   fun eng mb mode point radius tolerance v hv => circle_uv eng mb mode point radius tolerance v hv,
   fun eng mb mode point r1 r2 tol v hv => ellipse_uv eng mb mode point r1 r2 tol v hv,
   fun eng mb mode pts mb2 h v hv => polyline_uv eng mb mode pts mb2 h v hv,
   fun eng mb mode pts mb2 h v hv => polygon_uv eng mb mode pts mb2 h v hv,
   fun eng mb pts width mb2 h v hv =>
     polyline_uv eng mb (DrawMode.Line width) pts mb2 h v hv,
   fun mb pts mb2 h v hv => triangles_uv mb pts mb2 h v hv⟩

/-- C3 witness: the triangles conjunct applied to the concrete run on ptsA
and its first produced vertex. -/
theorem C3_witness :
    (⟨(0, 0), (0, 0)⟩ : Vertex ℤ) ∈ (MeshBuilder.new (α := ℤ)).buffer.vertices ∨
      (⟨(0, 0), (0, 0)⟩ : Vertex ℤ).uv = ((0 : ℤ), (0 : ℤ)) :=
  C3_normalizer_uv_zero.2.2.2.2.2.2.2 MeshBuilder.new ptsA mbTri (by decide)
    ⟨(0, 0), (0, 0)⟩ (by decide)

/-- C4 counterexample: with an engine that reports a tessellation failure,
the Fill-mode polyline and polygon builder calls fault (the source unwraps
the engine result, a fatal panic yielding no value and in particular no
returned error), contradicting the claim that the failure is propagated to
the caller as a returned error rather than faulting. -/
theorem C4_counterexample :
    MeshBuilder.polyline engErr MeshBuilder.new DrawMode.Fill ([] : List (Point2 ℤ)) = none ∧
    MeshBuilder.polygon engErr MeshBuilder.new DrawMode.Fill ([] : List (Point2 ℤ)) = none :=
  ⟨rfl, rfl⟩

/-- C4 amended: whenever the fill tessellation engine reports a failure, the
Fill-mode polyline and polygon calls fault fatally at the call site (the
unwrap of the engine result), returning no error value; the stroke path's
engine call has no failure channel at all. -/
theorem C4_amended_fill_failure_faults {α : Type} [Zero α]
    (eng : TessEngine α) (mb : MeshBuilder α) (pts : List (Point2 α))
    (e : TessellationError)
    (h : eng.fill_polyline (pts.map fun p => (p.x, p.y)) FillOptions.default =
      Except.error e) :
    MeshBuilder.polyline eng mb DrawMode.Fill pts = none ∧
    MeshBuilder.polygon eng mb DrawMode.Fill pts = none := by
  constructor
  · simp [MeshBuilder.polyline, h]
  · simp [MeshBuilder.polygon, h]

/-- C4 witness: the amended statement applied to the failing engine on the
empty point list. -/
theorem C4_witness :
    MeshBuilder.polyline engErr MeshBuilder.new DrawMode.Fill ([] : List (Point2 ℤ)) = none ∧
    MeshBuilder.polygon engErr MeshBuilder.new DrawMode.Fill ([] : List (Point2 ℤ)) = none :=
  C4_amended_fill_failure_faults engErr MeshBuilder.new []
    TessellationError.tooFewPoints rfl

/-- C5 counterexample: against a context that cannot allocate (its buffer
creation reports out-of-memory), build faults inside the external call and
returns no GameResult error at all, contradicting the claim that build
returns a resource-allocation error to the caller in that situation. -/
theorem C5_counterexample :
    MeshBuilder.build (MeshBuilder.new (α := ℤ)) ctxFail = none ∧
    ¬ ∃ e, MeshBuilder.build (MeshBuilder.new (α := ℤ)) ctxFail =
        some (Except.error e) := by
  refine ⟨rfl, ?_⟩
  rintro ⟨e, h⟩
  simp [MeshBuilder.build, ctxFail] at h

/-- C5 amended: build invokes the context's buffer creation exactly once and
never retries; if that call fails, the failure is a fault inside the
external call and build returns no error value, and if it succeeds build
returns Ok with the resulting Mesh. -/
theorem C5_amended_build {α : Type} (mb : MeshBuilder α) (ctx : Context α) :
    (∀ e, ctx.create_vertex_buffer_with_slice mb.buffer.vertices mb.buffer.indices =
        Except.error e → MeshBuilder.build mb ctx = none) ∧
    (∀ vbuf slice,
        ctx.create_vertex_buffer_with_slice mb.buffer.vertices mb.buffer.indices =
          Except.ok (vbuf, slice) →
        MeshBuilder.build mb ctx = some (Except.ok ⟨vbuf, slice, none⟩)) := by
  constructor
  · intro e h
    simp [MeshBuilder.build, h]
  · intro vbuf slice h
    simp [MeshBuilder.build, h]

/-- C5 witness: the amended statement applied to the failing context and to
the well-behaved context on a fresh builder. -/
theorem C5_witness :
    MeshBuilder.build (MeshBuilder.new (α := ℤ)) ctxFail = none ∧
    MeshBuilder.build (MeshBuilder.new (α := ℤ)) (gfxContext ℤ) =
      some (Except.ok ⟨⟨[]⟩, ⟨0, 0, []⟩, none⟩) :=
  ⟨(C5_amended_build MeshBuilder.new ctxFail).1 ResourceError.outOfMemory rfl,
   (C5_amended_build MeshBuilder.new (gfxContext ℤ)).2 ⟨[]⟩ ⟨0, 0, []⟩ rfl⟩

/-- C6: whenever the context's upload succeeds, build returns Ok with a Mesh
holding exactly the produced buffer handle and slice and blend_mode none;
against the well-behaved graphics context the handle carries the uploaded
vertices and the slice covers the whole uploaded index list (start 0, stop
the index count, carrying the uploaded indices). -/
theorem C6_build_mesh_fields {α : Type} :
    (∀ (mb : MeshBuilder α) (ctx : Context α) vbuf slice,
        ctx.create_vertex_buffer_with_slice mb.buffer.vertices mb.buffer.indices =
          Except.ok (vbuf, slice) →
        MeshBuilder.build mb ctx = some (Except.ok ⟨vbuf, slice, none⟩)) ∧
    (∀ mb : MeshBuilder α,
        MeshBuilder.build mb (gfxContext α) =
          some (Except.ok
            ⟨⟨mb.buffer.vertices⟩,
             ⟨0, mb.buffer.indices.length, mb.buffer.indices⟩, none⟩)) := by
  constructor
  · intro mb ctx vbuf slice h
    simp [MeshBuilder.build, h]
  · intro mb
    simp [MeshBuilder.build, gfxContext]

/-- C6 witness: the successful-upload conjunct applied to the well-behaved
context on a fresh builder. -/
theorem C6_witness :
    MeshBuilder.build (MeshBuilder.new (α := ℤ)) (gfxContext ℤ) =
      some (Except.ok ⟨⟨[]⟩, ⟨0, 0, []⟩, none⟩) :=
  C6_build_mesh_fields.1 MeshBuilder.new (gfxContext ℤ) ⟨[]⟩ ⟨0, 0, []⟩ rfl

/-- C7: line(points, width) leaves the builder in exactly the state
polyline(Line(width), points) leaves it in, from any starting state. -/
theorem C7_line_eq_polyline {α : Type} [Zero α] (eng : TessEngine α)
    (mb : MeshBuilder α) (points : List (Point2 α)) (width : α)
    (hlen : 1 ≤ points.length) :
    MeshBuilder.line eng mb points width =
      MeshBuilder.polyline eng mb (DrawMode.Line width) points := rfl

/-- C7 witness: the equivalence at a concrete one-point list. -/
theorem C7_witness :
    MeshBuilder.line engZero MeshBuilder.new [(⟨2, 3⟩ : Point2 ℤ)] 1 =
      MeshBuilder.polyline engZero MeshBuilder.new (DrawMode.Line 1) [⟨2, 3⟩] :=
  C7_line_eq_polyline engZero MeshBuilder.new [⟨2, 3⟩] 1 (by decide)

/-- C8: polygon behaves exactly as polyline except that its stroke run
passes the closed flag set where polyline passes it clear, with every other
argument to the tessellation calls the same (the Fill arms are literally
identical); consequently whenever the engine's closed and open stroke runs
append differently on the same points, the two calls produce different
accumulators. -/
theorem C8_polygon_closed_flag {α : Type} [Zero α] :
    (∀ (eng : TessEngine α) (mb : MeshBuilder α) pts,
        MeshBuilder.polygon eng mb DrawMode.Fill pts =
          MeshBuilder.polyline eng mb DrawMode.Fill pts) ∧
    (∀ (eng : TessEngine α) (mb : MeshBuilder α) (w : α) pts,
        MeshBuilder.polygon eng mb (DrawMode.Line w) pts =
          some ⟨(runEvents VertexBuilder.new_vertex_stroke
              (BuffersBuilder.begin_geometry mb.buffer)
              (eng.stroke_polyline (pts.map fun p => (p.x, p.y)) true
                (StrokeOptions.default.with_line_width w))).buffers⟩ ∧
        MeshBuilder.polyline eng mb (DrawMode.Line w) pts =
          some ⟨(runEvents VertexBuilder.new_vertex_stroke
              (BuffersBuilder.begin_geometry mb.buffer)
              (eng.stroke_polyline (pts.map fun p => (p.x, p.y)) false
                (StrokeOptions.default.with_line_width w))).buffers⟩) ∧
    (∀ (eng : TessEngine α) (mb : MeshBuilder α) (w : α) pts,
        (runEvents VertexBuilder.new_vertex_stroke (BuffersBuilder.begin_geometry mb.buffer)
            (eng.stroke_polyline (pts.map fun p => (p.x, p.y)) true
              (StrokeOptions.default.with_line_width w))).buffers ≠
          (runEvents VertexBuilder.new_vertex_stroke (BuffersBuilder.begin_geometry mb.buffer)
            (eng.stroke_polyline (pts.map fun p => (p.x, p.y)) false
              (StrokeOptions.default.with_line_width w))).buffers →
        MeshBuilder.polygon eng mb (DrawMode.Line w) pts ≠
          MeshBuilder.polyline eng mb (DrawMode.Line w) pts) := by
  refine ⟨fun eng mb pts => rfl, fun eng mb w pts => ⟨rfl, rfl⟩, ?_⟩
  intro eng mb w pts hne heq
  apply hne
  simp only [MeshBuilder.polygon, MeshBuilder.polyline, Option.some.injEq] at heq
  exact congrArg MeshBuilder.buffer heq

/-- C8 witness: on the engine whose closed and open strokes differ, polygon
and polyline differ at a concrete input. -/
theorem C8_witness :
    MeshBuilder.polygon engDiff MeshBuilder.new (DrawMode.Line 1) ([] : List (Point2 ℤ)) ≠
      MeshBuilder.polyline engDiff MeshBuilder.new (DrawMode.Line 1) [] :=
  C8_polygon_closed_flag.2.2 engDiff MeshBuilder.new 1 [] (by decide)

/-- C9: the accumulator invariant — every stored index strictly below the
vertex count, indices in whole triples — holds for a fresh builder and is
preserved by every shape operation, each of which only appends to the
vertex and index lists (for the tessellator-driven methods, under the
engine's geometry-builder contract). -/
theorem C9_accumulator_invariant {α : Type} [Zero α] :
    accumInv (MeshBuilder.new (α := α)).buffer ∧
    (∀ (mb : MeshBuilder α) pts mb2, MeshBuilder.triangles mb pts = some mb2 →
        accumInv mb.buffer → accumInv mb2.buffer ∧ appendOnly mb.buffer mb2.buffer) ∧
    (∀ (eng : TessEngine α), eng.wellFormed →
      ∀ (mb : MeshBuilder α) mode point (radius tolerance : α), accumInv mb.buffer →
        accumInv (MeshBuilder.circle eng mb mode point radius tolerance).buffer ∧
          appendOnly mb.buffer
            (MeshBuilder.circle eng mb mode point radius tolerance).buffer) ∧
    (∀ (eng : TessEngine α), eng.wellFormed →
      ∀ (mb : MeshBuilder α) mode point (r1 r2 tol : α), accumInv mb.buffer →
        accumInv (MeshBuilder.ellipse eng mb mode point r1 r2 tol).buffer ∧
          appendOnly mb.buffer (MeshBuilder.ellipse eng mb mode point r1 r2 tol).buffer) ∧
    (∀ (eng : TessEngine α), eng.wellFormed →
      ∀ (mb : MeshBuilder α) mode pts mb2, MeshBuilder.polyline eng mb mode pts = some mb2 →
        accumInv mb.buffer → accumInv mb2.buffer ∧ appendOnly mb.buffer mb2.buffer) ∧
    (∀ (eng : TessEngine α), eng.wellFormed →
      ∀ (mb : MeshBuilder α) mode pts mb2, MeshBuilder.polygon eng mb mode pts = some mb2 →
        accumInv mb.buffer → accumInv mb2.buffer ∧ appendOnly mb.buffer mb2.buffer) ∧
    (∀ (eng : TessEngine α), eng.wellFormed →
      ∀ (mb : MeshBuilder α) pts (width : α) mb2,
        MeshBuilder.line eng mb pts width = some mb2 →
        accumInv mb.buffer → accumInv mb2.buffer ∧ appendOnly mb.buffer mb2.buffer) :=
  ⟨⟨fun i hi => absurd hi (List.not_mem_nil i), rfl⟩,
   fun mb pts mb2 h hinv => triangles_preserves mb pts mb2 h hinv,
   fun eng hwf mb mode point radius tolerance hinv =>
     circle_preserves eng hwf mb mode point radius tolerance hinv,
   fun eng hwf mb mode point r1 r2 tol hinv =>
     ellipse_preserves eng hwf mb mode point r1 r2 tol hinv,
   fun eng hwf mb mode pts mb2 h hinv => polyline_preserves eng hwf mb mode pts mb2 h hinv,
   fun eng hwf mb mode pts mb2 h hinv => polygon_preserves eng hwf mb mode pts mb2 h hinv,
   fun eng hwf mb pts width mb2 h hinv => line_preserves eng hwf mb pts width mb2 h hinv⟩

/-- The trivial engine honours the geometry-builder contract. -/
theorem engZero_wf : engZero.wellFormed := by
  refine ⟨fun _ _ _ => trivial, fun _ _ _ => trivial, fun _ _ _ _ => trivial,
    fun _ _ _ _ => trivial, fun _ _ evs h => ?_, fun _ _ _ => trivial⟩
  cases h
  trivial

/-- C9 witness: the triangles conjunct on the concrete ptsA run and the
polyline conjunct on the trivial engine. -/
theorem C9_witness :
    (accumInv mbTri.buffer ∧ appendOnly (MeshBuilder.new (α := ℤ)).buffer mbTri.buffer) ∧
    (accumInv (MeshBuilder.new (α := ℤ)).buffer ∧
      appendOnly (MeshBuilder.new (α := ℤ)).buffer (MeshBuilder.new (α := ℤ)).buffer) :=
  ⟨C9_accumulator_invariant.2.1 MeshBuilder.new ptsA mbTri (by decide) (by simp [accumInv, MeshBuilder.new]),
   C9_accumulator_invariant.2.2.2.2.1 engZero engZero_wf MeshBuilder.new DrawMode.Fill []
     MeshBuilder.new (by decide) (by simp [accumInv, MeshBuilder.new])⟩

/-- C10: each Mesh convenience constructor returns exactly the result of
creating a fresh MeshBuilder, making the single corresponding shape call
with the same arguments, and calling build; and build takes the receiver by
shared reference, leaving the accumulated state unchanged, so a repeated
build on the same builder uploads identical geometry. -/
theorem C10_constructors_delegate {α : Type} [Zero α] :
    (∀ (eng : TessEngine α) (ctx : Context α) pts (w : α),
        Mesh.new_line eng ctx pts w =
          match MeshBuilder.line eng MeshBuilder.new pts w with
          | none => none
          | some mb => mb.build ctx) ∧
    (∀ (eng : TessEngine α) (ctx : Context α) mode point (radius tolerance : α),
        Mesh.new_circle eng ctx mode point radius tolerance =
          (MeshBuilder.circle eng MeshBuilder.new mode point radius tolerance).build ctx) ∧
    (∀ (eng : TessEngine α) (ctx : Context α) mode point (r1 r2 tol : α),
        Mesh.new_ellipse eng ctx mode point r1 r2 tol =
          (MeshBuilder.ellipse eng MeshBuilder.new mode point r1 r2 tol).build ctx) ∧
    (∀ (eng : TessEngine α) (ctx : Context α) mode pts,
        Mesh.new_polyline eng ctx mode pts =
          match MeshBuilder.polyline eng MeshBuilder.new mode pts with
          | none => none
          | some mb => mb.build ctx) ∧
    (∀ (eng : TessEngine α) (ctx : Context α) mode pts,
        Mesh.new_polygon eng ctx mode pts =
          match MeshBuilder.polygon eng MeshBuilder.new mode pts with
          | none => none
          | some mb => mb.build ctx) ∧
    (∀ (ctx : Context α) pts,
        Mesh.from_triangles ctx pts =
          match MeshBuilder.triangles MeshBuilder.new pts with
          | none => none
          | some mb => mb.build ctx) ∧
    (∀ (mb : MeshBuilder α) (ctx : Context α), (MeshBuilder.buildStep mb ctx).2 = mb) ∧
    (∀ (mb : MeshBuilder α) (ctx : Context α),
        (MeshBuilder.buildStep (MeshBuilder.buildStep mb ctx).2 ctx).1 =
          (MeshBuilder.buildStep mb ctx).1) :=
  ⟨fun _ _ _ _ => rfl, fun _ _ _ _ _ _ => rfl, fun _ _ _ _ _ _ _ => rfl,
   fun _ _ _ _ => rfl, fun _ _ _ _ => rfl, fun _ _ => rfl, fun _ _ => rfl,
   fun _ _ => rfl⟩
